import Mathlib

/-!
Verification development for the InLong dataproxy C++ SDK TCP client
(`src/inlong-sdk/dataproxy-sdk-twins/dataproxy-sdk-cpp/src/client/tcp_client.h`).

The repository ships only the header of `TcpClient`: the enum `ClientStatus`,
the constant `kConnectTimeout`, the field and method declarations, and the one
inline method body `isFree() { return (status_ == kFree); }`.  Everything
taken verbatim from that header is embedded directly below; the behaviour of
the declared methods (`AsyncConnect`, `OnConnected`, `BeginWrite`, `OnWroten`,
`OnReturn`/`OnBody`, `DetectStatus`, `HandleFail`, `DoClose`, `write`) is not
in the sources, so it is modelled from the specification's state-machine
table, queue discipline and error-handling contract, as marked on each
definition.
-/

namespace Inlong

/-- The `ClientStatus` enum from `tcp_client.h`, lines 31-40, with its
underlying numeric values.  Note the eighth enumerator `CLIENT_RESPONSE = 7`
present in the source beside the seven lifecycle states. -/
inductive ClientStatus where
  | kUndefined
  | kConnecting
  | kWriting
  | kFree
  | kConnectFailed
  | kWaiting
  | kStopped
  | CLIENT_RESPONSE
deriving DecidableEq, Repr

open ClientStatus

/-- Numeric value of each enumerator, as assigned in `tcp_client.h`. -/
def ClientStatus.toNat : ClientStatus → Nat
  | kUndefined => 0
  | kConnecting => 1
  | kWriting => 2
  | kFree => 3
  | kConnectFailed => 4
  | kWaiting => 5
  | kStopped => 6
  | CLIENT_RESPONSE => 7

/-- The anonymous enum constant from `tcp_client.h`, line 42:
`kConnectTimeout = 1000 * 20`. -/
def kConnectTimeout : Nat := 1000 * 20

/-- State of one `TcpClient`.  Fields `status_`, `ip_`, `port_`,
`tcp_idle_time_`, `tcp_detection_interval_`, `last_update_time_` and `exit_`
come from the header; the socket, the two timers, the receive block and the
pending-write queue (a `std::queue` of `SendBuffer` in the implementation) are
abstracted to the observable shape the specification describes.  Buffers are
identified by the order number assigned at submission (`nextId`); the ghost
logs `submitted`, `dispatched`, `completedLog` and `resLog` record the
submission order, the dispatch (transmission-start) order, the resolution
order of dispatched buffers, and every resolution event `(buffer, success)`,
so that the ordering and exactly-once contracts can be stated. -/
structure TcpClient where
  status_ : ClientStatus
  ip_ : String
  port_ : Nat
  socket_open : Bool
  connect_timer_ : Option Nat
  keep_alive_armed : Bool
  recv_bound : Bool
  tcp_idle_time_ : Nat
  tcp_detection_interval_ : Nat
  last_update_time_ : Nat
  probe_pending : Bool
  exit_ : Bool
  queue : List Nat
  inflight : Option Nat
  nextId : Nat
  submitted : List Nat
  dispatched : List Nat
  completedLog : List Nat
  resLog : List (Nat × Bool)
deriving DecidableEq, Repr

/-- `isFree`, embedded from its inline body in `tcp_client.h` line 77:
`bool isFree() { return (status_ == kFree); }`.  Modelled as a state
transformer (result together with the post-state) so that its effect on the
object can be stated; the body only reads `status_` and returns. -/
def TcpClient.isFree (c : TcpClient) : Bool × TcpClient :=
  ((c.status_ == kFree), c)

/-- Modelled from the spec: the constructor
`TcpClient(IOContext, ip, port)` (header line 66, body not in sources).
Per the spec, construction binds to the caller's reactor context and does not
connect eagerly; the connection is left `Undefined` until the first
`AsyncConnect`; the receive block is bound at creation and the keep-alive
timer is the recurring idle detector. -/
def TcpClient.init (ip : String) (port idle interval : Nat) : TcpClient :=
  { status_ := kUndefined
    ip_ := ip
    port_ := port
    socket_open := false
    connect_timer_ := none
    keep_alive_armed := true
    recv_bound := true
    tcp_idle_time_ := idle
    tcp_detection_interval_ := interval
    last_update_time_ := 0
    probe_pending := false
    exit_ := false
    queue := []
    inflight := none
    nextId := 0
    submitted := []
    dispatched := []
    completedLog := []
    resLog := [] }

/-- Resolve the in-flight buffer (if any) with outcome `ok`, appending the
resolution to the logs.  Used by the success path, `HandleFail` and
`DoClose`. -/
def TcpClient.resolveInflight (c : TcpClient) (ok : Bool) : TcpClient :=
  match c.inflight with
  | none => c
  | some b =>
      { c with inflight := none
               completedLog := c.completedLog ++ [b]
               resLog := c.resLog ++ [(b, ok)] }

/-- Dequeue the head of the pending-write queue into the in-flight slot and
enter `Writing` (the spec's `BeginWrite` dequeue step: ownership of the
buffer transfers to the connection at dequeue time). -/
def TcpClient.dispatch (c : TcpClient) : TcpClient :=
  match c.queue with
  | [] => c
  | b :: rest =>
      { c with queue := rest
               inflight := some b
               dispatched := c.dispatched ++ [b]
               status_ := kWriting }

/-- Modelled from the spec: `HandleFail` (header line 76, body not in
sources) — cancels outstanding timers, closes the socket, resolves the
in-flight buffer (if any) as failed, and transitions to `ConnectFailed`; the
queue is otherwise untouched. -/
def TcpClient.handleFail (c : TcpClient) : TcpClient :=
  let c1 := c.resolveInflight false
  { c1 with status_ := kConnectFailed
            socket_open := false
            connect_timer_ := none
            keep_alive_armed := false
            probe_pending := false }

/-- Modelled from the spec: `DoClose` (header line 75, body not in sources) —
the terminal path: cancels all timers, closes the socket, releases the
receive block, resolves the in-flight buffer and every queued-but-undispatched
buffer as failed, transitions to `Stopped` and sets the closing flag; a
second invocation is a no-op. -/
def TcpClient.doClose (c : TcpClient) : TcpClient :=
  if c.exit_ then c
  else
    let c1 := c.resolveInflight false
    { c1 with status_ := kStopped
              exit_ := true
              socket_open := false
              connect_timer_ := none
              keep_alive_armed := false
              recv_bound := false
              probe_pending := false
              queue := []
              resLog := c1.resLog ++ c1.queue.map (fun b => (b, false)) }

/-- Verdict the external frame codec returns for bytes accumulated in the
receive block (spec section 6): the frame is complete, incomplete so far, or
malformed. -/
inductive Verdict where
  | complete
  | incomplete
  | malformed
deriving DecidableEq, Repr

/-- The events that drive one connection: the public operations
(`AsyncConnect`, `write`, `DoClose`), the asynchronous completion callbacks
(`OnConnected`, `OnWroten`, `OnReturn`/`OnBody`), the connect-timer expiry,
the dequeue of a waiting buffer on an idle connection (`BeginWrite`), and a
keep-alive timer fire (`DetectStatus`) carrying the current time. -/
inductive Event where
  | asyncConnect
  | connectDone (ok : Bool) (now : Nat)
  | connectTimerFire
  | writeReq
  | wroteDone (ok : Bool) (now : Nat)
  | response (v : Verdict) (now : Nat)
  | drain
  | detect (now : Nat)
  | close
deriving DecidableEq, Repr

/-- The timestamp an event carries, when it carries one. -/
def Event.time : Event → Option Nat
  | .connectDone _ now => some now
  | .wroteDone _ now => some now
  | .response _ now => some now
  | .detect now => some now
  | _ => none

/-- Modelled from the spec: `AsyncConnect` (header line 68, body not in
sources) — from `Undefined`, `Free` or `ConnectFailed` it enters `Connecting`
and arms the one-shot connect timer with the fixed `kConnectTimeout`. -/
def TcpClient.asyncConnect (c : TcpClient) : TcpClient :=
  if c.exit_ then c
  else if c.status_ = kUndefined ∨ c.status_ = kFree ∨ c.status_ = kConnectFailed then
    { c with status_ := kConnecting, connect_timer_ := some kConnectTimeout }
  else c

/-- Modelled from the spec: `OnConnected` (header line 70, body not in
sources) — on success the connect timer is cancelled, activity is recorded,
and the connection enters `Writing` (dequeuing the head) if a buffer is
already queued, else `Free`; on failure it enters `ConnectFailed`. -/
def TcpClient.onConnected (c : TcpClient) (ok : Bool) (now : Nat) : TcpClient :=
  if c.exit_ then c
  else if c.status_ = kConnecting then
    if ok then
      let c1 := { c with connect_timer_ := none
                         socket_open := true
                         keep_alive_armed := true
                         probe_pending := false
                         last_update_time_ := now }
      match c1.queue with
      | [] => { c1 with status_ := kFree }
      | _ :: _ => c1.dispatch
    else { c with status_ := kConnectFailed, connect_timer_ := none }
  else c

/-- Modelled from the spec: the connect timer firing before `OnConnected`
(spec section 4.5) — treated identically to an explicit connect failure. -/
def TcpClient.connectTimerFire (c : TcpClient) : TcpClient :=
  if c.exit_ then c
  else if c.status_ = kConnecting ∧ c.connect_timer_.isSome then
    { c with status_ := kConnectFailed, connect_timer_ := none }
  else c

/-- Modelled from the spec: `write` (header line 78, body not in sources) —
assigns the buffer its submission order number and enqueues it; if the
connection is idle (`Free`) the head of the queue is dispatched immediately;
a buffer submitted after close is resolved as failed (a closed connection
transmits nothing and no buffer is silently dropped). -/
def TcpClient.writeReq (c : TcpClient) : TcpClient :=
  let b := c.nextId
  let c1 := { c with nextId := b + 1, submitted := c.submitted ++ [b] }
  if c1.exit_ then { c1 with resLog := c1.resLog ++ [(b, false)] }
  else
    let c2 := { c1 with queue := c1.queue ++ [b] }
    if c2.status_ = kFree then c2.dispatch else c2

/-- Modelled from the spec: `OnWroten` (header line 72, body not in sources)
— on write success the connection awaits the response (`Waiting`) and
activity is recorded; a write error goes through `HandleFail`. -/
def TcpClient.onWroten (c : TcpClient) (ok : Bool) (now : Nat) : TcpClient :=
  if c.exit_ then c
  else if c.status_ = kWriting then
    if ok then
      { c with status_ := kWaiting, last_update_time_ := now, probe_pending := false }
    else c.handleFail
  else c

/-- Modelled from the spec: `OnReturn`/`OnBody` (header lines 73-74, bodies
not in sources) — in `Waiting`, a complete response frame resolves the
in-flight buffer as success, resets the receive block and returns to `Free`;
an incomplete frame accumulates with no state change; a malformed frame or
response error goes through `HandleFail`.  Receipt of bytes records
activity. -/
def TcpClient.onResponse (c : TcpClient) (v : Verdict) (now : Nat) : TcpClient :=
  if c.exit_ then c
  else if c.status_ = kWaiting then
    match v with
    | .complete =>
        let c1 := c.resolveInflight true
        { c1 with status_ := kFree, last_update_time_ := now, probe_pending := false }
    | .incomplete =>
        { c with last_update_time_ := now, probe_pending := false }
    | .malformed => c.handleFail
  else c

/-- Modelled from the spec: `BeginWrite` draining an idle connection (header
line 71, body not in sources) — when the connection is `Free` and the queue
is non-empty, the head is dequeued and transmission begins. -/
def TcpClient.drain (c : TcpClient) : TcpClient :=
  if c.exit_ then c
  else if c.status_ = kFree ∧ c.queue ≠ [] then c.dispatch
  else c

/-- Modelled from the spec: `DetectStatus` (header line 79, body not in
sources) — the keep-alive timer fires; on a connected status, if
`now - last_update_time_ >= tcp_idle_time_` a probe is issued, and if the
probe is still unanswered at the next fire the connection fails via
`HandleFail`; any recorded activity clears the pending probe. -/
def TcpClient.detect (c : TcpClient) (now : Nat) : TcpClient :=
  if c.exit_ then c
  else if c.status_ = kFree ∨ c.status_ = kWriting ∨ c.status_ = kWaiting then
    if c.last_update_time_ + c.tcp_idle_time_ ≤ now then
      if c.probe_pending then c.handleFail
      else { c with probe_pending := true }
    else { c with probe_pending := false }
  else c

/-- One step of the connection state machine. -/
def step (e : Event) (c : TcpClient) : TcpClient :=
  match e with
  | .asyncConnect => c.asyncConnect
  | .connectDone ok now => c.onConnected ok now
  | .connectTimerFire => c.connectTimerFire
  | .writeReq => c.writeReq
  | .wroteDone ok now => c.onWroten ok now
  | .response v now => c.onResponse v now
  | .drain => c.drain
  | .detect now => c.detect now
  | .close => c.doClose

/-- The states reachable from a freshly constructed connection by any
sequence of events. -/
inductive Reachable : TcpClient → Prop where
  | init (ip : String) (port idle interval : Nat) :
      Reachable (TcpClient.init ip port idle interval)
  | step {c : TcpClient} (e : Event) : Reachable c → Reachable (step e c)

/-- The seven lifecycle states of the specification's state machine
(section 4.1). -/
def sevenStates : List ClientStatus :=
  [kUndefined, kConnecting, kWriting, kFree, kConnectFailed, kWaiting, kStopped]

/-- The edges of the transition table of spec section 4.1 (proper
transitions only; a row that keeps the state, such as a partial frame in
`Waiting`, is not an edge).  Rows: `AsyncConnect` from
`Undefined`/`Free`/`ConnectFailed`; connect success to `Free` or `Writing`;
connect failure/timeout; dequeue on idle `Free`; write completion to
`Waiting` or `Free`; write error; full response; response error; idle
detection from any non-`Stopped` state; explicit close from any
non-`Stopped` state. -/
def transitionTable : List (ClientStatus × ClientStatus) :=
  [(kUndefined, kConnecting), (kFree, kConnecting), (kConnectFailed, kConnecting),
   (kConnecting, kFree), (kConnecting, kWriting), (kConnecting, kConnectFailed),
   (kFree, kWriting),
   (kWriting, kWaiting), (kWriting, kFree), (kWriting, kConnectFailed),
   (kWaiting, kFree), (kWaiting, kConnectFailed),
   (kUndefined, kConnectFailed), (kFree, kConnectFailed),
   (kUndefined, kStopped), (kConnecting, kStopped), (kWriting, kStopped),
   (kFree, kStopped), (kConnectFailed, kStopped), (kWaiting, kStopped)]

/-- The inductive invariant of one connection: the single-writer discipline
(an in-flight buffer exists only in `Writing`/`Waiting`), the seven-state
range, the closed-flag discipline, submission numbering, FIFO bookkeeping
(`submitted = dispatched ++ queue` while open, dispatch order a prefix of
submission order once closed, completion order a prefix of dispatch order),
and the conservation of buffers (every submitted buffer is in exactly one of
the resolution log, the queue, or the in-flight slot). -/
structure Inv (c : TcpClient) : Prop where
  inflight_status : ∀ b, c.inflight = some b →
    c.status_ = kWriting ∨ c.status_ = kWaiting
  seven : c.status_ ≠ CLIENT_RESPONSE
  exit_stopped : c.exit_ = true →
    c.status_ = kStopped ∧ c.queue = [] ∧ c.inflight = none
  stopped_exit : c.status_ = kStopped → c.exit_ = true
  submitted_range : c.submitted = List.range c.nextId
  order_open : c.exit_ = false → c.submitted = c.dispatched ++ c.queue
  order_closed : c.exit_ = true → ∃ l, c.submitted = c.dispatched ++ l
  completed_prefix : c.dispatched = c.completedLog ++ c.inflight.toList
  conserve :
    List.Perm (c.resLog.map Prod.fst ++ c.queue ++ c.inflight.toList) c.submitted

/-- The invariant holds at construction. -/
theorem inv_init (ip : String) (port idle interval : Nat) :
    Inv (TcpClient.init ip port idle interval) := by
  constructor <;> simp [TcpClient.init]

/-- Frame rule: the invariant only mentions the status, the closing flag, the
queue, the in-flight slot, the numbering and the ghost logs; any update that
leaves these fields unchanged preserves it. -/
theorem inv_frame {c c2 : TcpClient} (h : Inv c)
    (hs : c2.status_ = c.status_) (hx : c2.exit_ = c.exit_)
    (hq : c2.queue = c.queue) (hf : c2.inflight = c.inflight)
    (hn : c2.nextId = c.nextId) (hsub : c2.submitted = c.submitted)
    (hd : c2.dispatched = c.dispatched) (hcl : c2.completedLog = c.completedLog)
    (hr : c2.resLog = c.resLog) : Inv c2 := by
  constructor
  · intro b hb
    rw [hf] at hb
    rw [hs]
    exact h.inflight_status b hb
  · rw [hs]; exact h.seven
  · intro hx2
    rw [hx] at hx2
    rw [hs, hq, hf]
    exact h.exit_stopped hx2
  · intro hst
    rw [hs] at hst
    rw [hx]
    exact h.stopped_exit hst
  · rw [hsub, hn]; exact h.submitted_range
  · intro he
    rw [hx] at he
    rw [hsub, hd, hq]
    exact h.order_open he
  · intro he
    rw [hx] at he
    rw [hsub, hd]
    exact h.order_closed he
  · rw [hd, hcl, hf]; exact h.completed_prefix
  · rw [hr, hq, hf, hsub]; exact h.conserve

/-- Dispatching preserves the invariant, provided no buffer is already in
flight (the single-writer discipline). -/
theorem inv_dispatch {c : TcpClient} (h : Inv c) (hin : c.inflight = none) :
    Inv c.dispatch := by
  obtain ⟨st, ip, pt, so, ct, ka, rb, ti, td, lu, pp, ex, q, infl, ni, sub, disp, comp, res⟩ := c
  dsimp only at hin
  subst hin
  rcases q with _ | ⟨b, rest⟩
  · exact h
  · simp only [TcpClient.dispatch]
    have hex : ex = false := by
      cases ex
      · rfl
      · exact absurd (h.exit_stopped rfl).2.1 (by simp)
    subst hex
    constructor
    · intro b0 hb
      left; rfl
    · simp
    · intro hx2; exact Bool.noConfusion hx2
    · intro hst; exact absurd hst (by simp)
    · exact h.submitted_range
    · intro _
      have hoo := h.order_open rfl
      dsimp only at hoo ⊢
      rw [hoo, List.append_assoc, List.singleton_append]
    · intro hx2; exact Bool.noConfusion hx2
    · have hcp := h.completed_prefix
      dsimp only [Option.toList] at hcp ⊢
      rw [hcp, List.append_nil]
    · have hc := h.conserve
      dsimp only [Option.toList] at hc ⊢
      rw [List.append_nil] at hc
      refine List.Perm.trans ?_ hc
      rw [List.append_assoc]
      exact (List.perm_append_singleton b rest).append_left _

/-- `HandleFail` preserves the invariant while the connection is open. -/
theorem inv_handleFail {c : TcpClient} (h : Inv c) (hex : c.exit_ = false) :
    Inv c.handleFail := by
  obtain ⟨st, ip, pt, so, ct, ka, rb, ti, td, lu, pp, ex, q, infl, ni, sub, disp, comp, res⟩ := c
  dsimp only at hex
  subst hex
  rcases infl with _ | b
  · simp only [TcpClient.handleFail, TcpClient.resolveInflight]
    constructor
    · intro b0 hb; exact Option.noConfusion hb
    · simp
    · intro hx2; exact Bool.noConfusion hx2
    · intro hst2; exact absurd hst2 (by simp)
    · exact h.submitted_range
    · intro _; exact h.order_open rfl
    · intro hx2; exact Bool.noConfusion hx2
    · exact h.completed_prefix
    · exact h.conserve
  · simp only [TcpClient.handleFail, TcpClient.resolveInflight]
    constructor
    · intro b0 hb; exact Option.noConfusion hb
    · simp
    · intro hx2; exact Bool.noConfusion hx2
    · intro hst2; exact absurd hst2 (by simp)
    · exact h.submitted_range
    · intro _; exact h.order_open rfl
    · intro hx2; exact Bool.noConfusion hx2
    · have hcp := h.completed_prefix
      dsimp only [Option.toList] at hcp ⊢
      rw [hcp, List.append_nil]
    · have hc := h.conserve
      dsimp only [Option.toList] at hc ⊢
      rw [List.append_nil, List.map_append]
      refine List.Perm.trans ?_ hc
      rw [List.append_assoc, List.append_assoc]
      refine List.Perm.append_left _ ?_
      dsimp only [List.map_cons, List.map_nil]
      exact List.perm_append_comm

/-- `AsyncConnect` preserves the invariant. -/
theorem inv_asyncConnect {c : TcpClient} (h : Inv c) : Inv c.asyncConnect := by
  obtain ⟨st, ip, pt, so, ct, ka, rb, ti, td, lu, pp, ex, q, infl, ni, sub, disp, comp, res⟩ := c
  cases ex
  · simp only [TcpClient.asyncConnect, Bool.false_eq_true, if_false]
    split
    · rename_i hst
      constructor
      · intro b hb
        exfalso
        rcases h.inflight_status b hb with h3 | h3 <;>
          rcases hst with h2 | h2 | h2 <;> simp_all
      · simp
      · intro hx2; exact Bool.noConfusion hx2
      · intro hst2; exact absurd hst2 (by simp)
      · exact h.submitted_range
      · intro _; exact h.order_open rfl
      · intro hx2; exact Bool.noConfusion hx2
      · exact h.completed_prefix
      · exact h.conserve
    · exact h
  · exact h

/-- The connect timer firing preserves the invariant. -/
theorem inv_connectTimerFire {c : TcpClient} (h : Inv c) :
    Inv c.connectTimerFire := by
  obtain ⟨st, ip, pt, so, ct, ka, rb, ti, td, lu, pp, ex, q, infl, ni, sub, disp, comp, res⟩ := c
  cases ex
  · simp only [TcpClient.connectTimerFire, Bool.false_eq_true, if_false]
    split
    · rename_i hst
      constructor
      · intro b hb
        exfalso
        rcases h.inflight_status b hb with h3 | h3 <;> simp_all
      · simp
      · intro hx2; exact Bool.noConfusion hx2
      · intro hst2; exact absurd hst2 (by simp)
      · exact h.submitted_range
      · intro _; exact h.order_open rfl
      · intro hx2; exact Bool.noConfusion hx2
      · exact h.completed_prefix
      · exact h.conserve
    · exact h
  · exact h

/-- `OnConnected` preserves the invariant. -/
theorem inv_onConnected {c : TcpClient} (h : Inv c) (ok : Bool) (now : Nat) :
    Inv (c.onConnected ok now) := by
  obtain ⟨st, ip, pt, so, ct, ka, rb, ti, td, lu, pp, ex, q, infl, ni, sub, disp, comp, res⟩ := c
  cases ex
  · simp only [TcpClient.onConnected, Bool.false_eq_true, if_false]
    split
    · rename_i hst
      have hinfl : infl = none := by
        rcases hi : infl with _ | b0
        · rfl
        · exfalso
          rcases h.inflight_status b0 (by rw [hi]) with h3 | h3 <;> simp_all
      subst hinfl
      split
      · split
        · constructor
          · intro b hb; exact Option.noConfusion hb
          · simp
          · intro hx2; exact Bool.noConfusion hx2
          · intro hst2; exact absurd hst2 (by simp)
          · exact h.submitted_range
          · intro _; exact h.order_open rfl
          · intro hx2; exact Bool.noConfusion hx2
          · exact h.completed_prefix
          · exact h.conserve
        · exact inv_dispatch (inv_frame h rfl rfl rfl rfl rfl rfl rfl rfl rfl) rfl
      · constructor
        · intro b hb; exact Option.noConfusion hb
        · simp
        · intro hx2; exact Bool.noConfusion hx2
        · intro hst2; exact absurd hst2 (by simp)
        · exact h.submitted_range
        · intro _; exact h.order_open rfl
        · intro hx2; exact Bool.noConfusion hx2
        · exact h.completed_prefix
        · exact h.conserve
    · exact h
  · exact h

/-- Permutation helper: swapping the last two of three concatenated blocks
preserves a permutation. -/
theorem perm_swap23 {A B C S : List Nat} (hc : List.Perm (A ++ B ++ C) S) :
    List.Perm (A ++ C ++ B) S := by
  refine List.Perm.trans ?_ hc
  rw [List.append_assoc, List.append_assoc]
  exact List.perm_append_comm.append_left A

/-- `write` preserves the invariant. -/
theorem inv_writeReq {c : TcpClient} (h : Inv c) : Inv c.writeReq := by
  obtain ⟨st, ip, pt, so, ct, ka, rb, ti, td, lu, pp, ex, q, infl, ni, sub, disp, comp, res⟩ := c
  cases ex
  · simp only [TcpClient.writeReq, Bool.false_eq_true, if_false]
    split
    · rename_i hst
      apply inv_dispatch
      · constructor
        · exact fun b hb => h.inflight_status b hb
        · exact h.seven
        · intro hx2; exact Bool.noConfusion hx2
        · intro hst2; exact Bool.noConfusion (h.stopped_exit hst2)
        · have hsr := h.submitted_range
          dsimp only at hsr ⊢
          rw [hsr, List.range_succ]
        · intro _
          have hoo := h.order_open rfl
          dsimp only at hoo ⊢
          rw [hoo, List.append_assoc]
        · intro hx2; exact Bool.noConfusion hx2
        · exact h.completed_prefix
        · have hc := h.conserve
          dsimp only at hc ⊢
          rw [← List.append_assoc (List.map Prod.fst res) q [ni]]
          exact perm_swap23 (hc.append_right [ni])
      · dsimp only
        rcases hi : infl with _ | b0
        · rfl
        · exfalso
          rcases h.inflight_status b0 (by rw [hi]) with h3 | h3 <;> simp_all
    · constructor
      · exact fun b hb => h.inflight_status b hb
      · exact h.seven
      · intro hx2; exact Bool.noConfusion hx2
      · intro hst2; exact Bool.noConfusion (h.stopped_exit hst2)
      · have hsr := h.submitted_range
        dsimp only at hsr ⊢
        rw [hsr, List.range_succ]
      · intro _
        have hoo := h.order_open rfl
        dsimp only at hoo ⊢
        rw [hoo, List.append_assoc]
      · intro hx2; exact Bool.noConfusion hx2
      · exact h.completed_prefix
      · have hc := h.conserve
        dsimp only at hc ⊢
        rw [← List.append_assoc (List.map Prod.fst res) q [ni]]
        exact perm_swap23 (hc.append_right [ni])
  · obtain ⟨hst, hq, hin⟩ := h.exit_stopped rfl
    dsimp only at hst hq hin
    subst hst; subst hq; subst hin
    simp only [TcpClient.writeReq, if_true]
    constructor
    · intro b hb; exact Option.noConfusion hb
    · exact h.seven
    · intro _; exact ⟨rfl, rfl, rfl⟩
    · intro _; rfl
    · have hsr := h.submitted_range
      dsimp only at hsr ⊢
      rw [hsr, List.range_succ]
    · intro he; exact Bool.noConfusion he
    · intro _
      obtain ⟨l, hl⟩ := h.order_closed rfl
      dsimp only at hl
      refine ⟨l ++ [ni], ?_⟩
      dsimp only
      rw [hl, List.append_assoc]
    · exact h.completed_prefix
    · have hc := h.conserve
      dsimp only [Option.toList] at hc ⊢
      rw [List.append_nil, List.append_nil] at hc
      rw [List.append_nil, List.append_nil, List.map_append]
      dsimp only [List.map_cons, List.map_nil]
      exact hc.append_right [ni]

/-- `OnWroten` preserves the invariant. -/
theorem inv_onWroten {c : TcpClient} (h : Inv c) (ok : Bool) (now : Nat) :
    Inv (c.onWroten ok now) := by
  obtain ⟨st, ip, pt, so, ct, ka, rb, ti, td, lu, pp, ex, q, infl, ni, sub, disp, comp, res⟩ := c
  cases ex
  · simp only [TcpClient.onWroten, Bool.false_eq_true, if_false]
    split
    · split
      · constructor
        · intro b hb; right; rfl
        · simp
        · intro hx2; exact Bool.noConfusion hx2
        · intro hst2; exact absurd hst2 (by simp)
        · exact h.submitted_range
        · intro _; exact h.order_open rfl
        · intro hx2; exact Bool.noConfusion hx2
        · exact h.completed_prefix
        · exact h.conserve
      · exact inv_handleFail h rfl
    · exact h
  · exact h

/-- `OnReturn`/`OnBody` preserve the invariant. -/
theorem inv_onResponse {c : TcpClient} (h : Inv c) (v : Verdict) (now : Nat) :
    Inv (c.onResponse v now) := by
  obtain ⟨st, ip, pt, so, ct, ka, rb, ti, td, lu, pp, ex, q, infl, ni, sub, disp, comp, res⟩ := c
  cases ex
  · simp only [TcpClient.onResponse, Bool.false_eq_true, if_false]
    split
    · cases v
      · rcases infl with _ | b
        · simp only [TcpClient.resolveInflight]
          constructor
          · intro b hb; exact Option.noConfusion hb
          · simp
          · intro hx2; exact Bool.noConfusion hx2
          · intro hst2; exact absurd hst2 (by simp)
          · exact h.submitted_range
          · intro _; exact h.order_open rfl
          · intro hx2; exact Bool.noConfusion hx2
          · exact h.completed_prefix
          · exact h.conserve
        · simp only [TcpClient.resolveInflight]
          constructor
          · intro b0 hb; exact Option.noConfusion hb
          · simp
          · intro hx2; exact Bool.noConfusion hx2
          · intro hst2; exact absurd hst2 (by simp)
          · exact h.submitted_range
          · intro _; exact h.order_open rfl
          · intro hx2; exact Bool.noConfusion hx2
          · have hcp := h.completed_prefix
            dsimp only [Option.toList] at hcp ⊢
            rw [hcp, List.append_nil]
          · have hc := h.conserve
            dsimp only [Option.toList] at hc ⊢
            rw [List.append_nil, List.map_append]
            dsimp only [List.map_cons, List.map_nil]
            exact perm_swap23 hc
      · exact inv_frame h rfl rfl rfl rfl rfl rfl rfl rfl rfl
      · exact inv_handleFail h rfl
    · exact h
  · exact h

/-- Draining an idle connection preserves the invariant. -/
theorem inv_drain {c : TcpClient} (h : Inv c) : Inv c.drain := by
  obtain ⟨st, ip, pt, so, ct, ka, rb, ti, td, lu, pp, ex, q, infl, ni, sub, disp, comp, res⟩ := c
  cases ex
  · simp only [TcpClient.drain, Bool.false_eq_true, if_false]
    split
    · rename_i hcond
      have hinfl : infl = none := by
        rcases hi : infl with _ | b0
        · rfl
        · exfalso
          rcases h.inflight_status b0 (by rw [hi]) with h3 | h3 <;> simp_all
      exact inv_dispatch h hinfl
    · exact h
  · exact h

/-- `DetectStatus` preserves the invariant. -/
theorem inv_detect {c : TcpClient} (h : Inv c) (now : Nat) :
    Inv (c.detect now) := by
  obtain ⟨st, ip, pt, so, ct, ka, rb, ti, td, lu, pp, ex, q, infl, ni, sub, disp, comp, res⟩ := c
  cases ex
  · simp only [TcpClient.detect, Bool.false_eq_true, if_false]
    split
    · split
      · split
        · exact inv_handleFail h rfl
        · exact inv_frame h rfl rfl rfl rfl rfl rfl rfl rfl rfl
      · exact inv_frame h rfl rfl rfl rfl rfl rfl rfl rfl rfl
    · exact h
  · exact h

/-- `DoClose` preserves the invariant. -/
theorem inv_doClose {c : TcpClient} (h : Inv c) : Inv c.doClose := by
  obtain ⟨st, ip, pt, so, ct, ka, rb, ti, td, lu, pp, ex, q, infl, ni, sub, disp, comp, res⟩ := c
  cases ex
  · rcases infl with _ | b
    · simp only [TcpClient.doClose, TcpClient.resolveInflight, Bool.false_eq_true, if_false]
      constructor
      · intro b hb; exact Option.noConfusion hb
      · simp
      · intro _; exact ⟨rfl, rfl, rfl⟩
      · intro _; rfl
      · exact h.submitted_range
      · intro he; exact Bool.noConfusion he
      · intro _; exact ⟨q, h.order_open rfl⟩
      · exact h.completed_prefix
      · have hc := h.conserve
        dsimp only [Option.toList] at hc ⊢
        rw [List.append_nil] at hc
        rw [List.append_nil, List.append_nil, List.map_append, List.map_map]
        rw [show (Prod.fst ∘ fun b : Nat => (b, false)) = id from rfl, List.map_id]
        exact hc
    · simp only [TcpClient.doClose, TcpClient.resolveInflight, Bool.false_eq_true, if_false]
      constructor
      · intro b0 hb; exact Option.noConfusion hb
      · simp
      · intro _; exact ⟨rfl, rfl, rfl⟩
      · intro _; rfl
      · exact h.submitted_range
      · intro he; exact Bool.noConfusion he
      · intro _; exact ⟨q, h.order_open rfl⟩
      · have hcp := h.completed_prefix
        dsimp only [Option.toList] at hcp ⊢
        rw [hcp, List.append_nil]
      · have hc := h.conserve
        dsimp only [Option.toList] at hc ⊢
        rw [List.append_nil, List.append_nil, List.map_append, List.map_append, List.map_map]
        rw [show (Prod.fst ∘ fun b : Nat => (b, false)) = id from rfl, List.map_id]
        dsimp only [List.map_cons, List.map_nil]
        exact perm_swap23 hc
  · exact h

/-- Every event preserves the invariant. -/
theorem inv_step {c : TcpClient} (e : Event) (h : Inv c) : Inv (step e c) := by
  cases e with
  | asyncConnect => exact inv_asyncConnect h
  | connectDone ok now => exact inv_onConnected h ok now
  | connectTimerFire => exact inv_connectTimerFire h
  | writeReq => exact inv_writeReq h
  | wroteDone ok now => exact inv_onWroten h ok now
  | response v now => exact inv_onResponse h v now
  | drain => exact inv_drain h
  | detect now => exact inv_detect h now
  | close => exact inv_doClose h

/-- Every reachable state satisfies the invariant. -/
theorem reachable_inv {c : TcpClient} (h : Reachable c) : Inv c := by
  induction h with
  | init ip port idle interval => exact inv_init ip port idle interval
  | step e _ ih => exact inv_step e ih

/-- On a state whose status is one of the seven lifecycle states, every
event either keeps the status or moves it along an edge of the transition
table, and the terminal `Stopped` status is never left. -/
theorem step_edges (c : TcpClient) (e : Event) (hc : c.status_ ≠ CLIENT_RESPONSE) :
    ((step e c).status_ = c.status_ ∨
      (c.status_, (step e c).status_) ∈ transitionTable) ∧
    (c.status_ = kStopped → (step e c).status_ = kStopped) := by
  obtain ⟨st, ip, pt, so, ct, ka, rb, ti, td, lu, pp, ex, q, infl, ni, sub, disp, comp, res⟩ := c
  dsimp only at hc
  cases e <;> cases ex <;> cases st <;>
    first
    | exact absurd rfl hc
    | (refine ⟨?_, ?_⟩ <;>
        (try simp [step, TcpClient.asyncConnect, TcpClient.onConnected,
          TcpClient.connectTimerFire, TcpClient.writeReq, TcpClient.onWroten,
          TcpClient.onResponse, TcpClient.drain, TcpClient.detect,
          TcpClient.doClose, TcpClient.handleFail, TcpClient.resolveInflight,
          TcpClient.dispatch, transitionTable]) <;>
        (repeat' split) <;>
        (try simp [transitionTable]))

/-- Claim C1: in every reachable state, `isFree()` returns true if and only
if the status is `Free` and no in-flight (dequeued-but-unresolved) buffer
exists.  The inline body only tests `status_ == kFree`; the equivalence holds
because on reachable states a buffer is in flight only in
`Writing`/`Waiting`, never in `Free`. -/
theorem isFree_iff_free_and_no_inflight {c : TcpClient} (h : Reachable c) :
    (TcpClient.isFree c).1 = true ↔ (c.status_ = kFree ∧ c.inflight = none) := by
  have hinv := reachable_inv h
  constructor
  · intro hf
    have hst : c.status_ = kFree := by
      simpa [TcpClient.isFree] using hf
    refine ⟨hst, ?_⟩
    rcases hi : c.inflight with _ | b
    · rfl
    · exfalso
      rcases hinv.inflight_status b hi with h3 | h3 <;> rw [hst] at h3 <;>
        exact absurd h3 (by simp)
  · rintro ⟨hst, -⟩
    simp [TcpClient.isFree, hst]

/-- Witness for C1, at the freshly constructed state. -/
theorem isFree_iff_free_and_no_inflight_witness :
    ((TcpClient.isFree (TcpClient.init "127.0.0.1" 46801 5 1)).1 = true ↔
      ((TcpClient.init "127.0.0.1" 46801 5 1).status_ = kFree ∧
        (TcpClient.init "127.0.0.1" 46801 5 1).inflight = none)) :=
  isFree_iff_free_and_no_inflight (Reachable.init "127.0.0.1" 46801 5 1)

/-- Claim C2: every reachable status is one of the seven lifecycle states
(`CLIENT_RESPONSE`, the eighth enumerator of the source enum, is never
taken); each of the seven is reachable; every status change taken by any
event follows an edge of the section-4.1 transition table; and `Stopped` is
terminal. -/
theorem status_machine_follows_table {c : TcpClient} (h : Reachable c) :
    c.status_ ∈ sevenStates ∧
    (∀ e, ((step e c).status_ = c.status_ ∨
        (c.status_, (step e c).status_) ∈ transitionTable) ∧
      (c.status_ = kStopped → (step e c).status_ = kStopped)) ∧
    (∀ st, st ∈ sevenStates → ∃ c2, Reachable c2 ∧ c2.status_ = st) := by
  have hinv := reachable_inv h
  refine ⟨?_, fun e => step_edges c e hinv.seven, ?_⟩
  · have h7 := hinv.seven
    rcases hs : c.status_ <;>
      first
      | exact absurd hs h7
      | simp [sevenStates]
  · intro st hst
    have r0 : Reachable (TcpClient.init "" 0 0 0) := Reachable.init "" 0 0 0
    have r1 := Reachable.step Event.asyncConnect r0
    have r2 := Reachable.step (Event.connectDone true 0) r1
    have r3 := Reachable.step Event.writeReq r2
    have r4 := Reachable.step (Event.wroteDone true 0) r3
    have r5 := Reachable.step (Event.response Verdict.malformed 0) r4
    have r6 := Reachable.step Event.close r5
    simp only [sevenStates, List.mem_cons, List.not_mem_nil, or_false] at hst
    rcases hst with rfl | rfl | rfl | rfl | rfl | rfl | rfl
    · exact ⟨_, r0, rfl⟩
    · exact ⟨_, r1, rfl⟩
    · exact ⟨_, r3, rfl⟩
    · exact ⟨_, r2, rfl⟩
    · exact ⟨_, r5, rfl⟩
    · exact ⟨_, r4, rfl⟩
    · exact ⟨_, r6, rfl⟩

/-- Witness for C2, at the freshly constructed state. -/
theorem status_machine_follows_table_witness :
    (TcpClient.init "127.0.0.1" 46801 5 1).status_ ∈ sevenStates ∧
    (∀ e, ((step e (TcpClient.init "127.0.0.1" 46801 5 1)).status_ =
          (TcpClient.init "127.0.0.1" 46801 5 1).status_ ∨
        ((TcpClient.init "127.0.0.1" 46801 5 1).status_,
          (step e (TcpClient.init "127.0.0.1" 46801 5 1)).status_) ∈ transitionTable) ∧
      ((TcpClient.init "127.0.0.1" 46801 5 1).status_ = kStopped →
        (step e (TcpClient.init "127.0.0.1" 46801 5 1)).status_ = kStopped)) ∧
    (∀ st, st ∈ sevenStates → ∃ c2, Reachable c2 ∧ c2.status_ = st) :=
  status_machine_follows_table (Reachable.init "127.0.0.1" 46801 5 1)

/-- Claim C3: buffers are transmitted and completed in submission order.  In
every reachable state the dispatch (transmission-start) order is a prefix of
the submission order, and the completion order of dispatched buffers is a
prefix of the dispatch order (the missing buffer, if any, being the single
in-flight one); so no buffer is transmitted or completed before an
earlier-submitted one, across retries included. -/
theorem fifo_transmission_order {c : TcpClient} (h : Reachable c) :
    (∃ l, c.submitted = c.dispatched ++ l) ∧
    c.dispatched = c.completedLog ++ c.inflight.toList := by
  have hinv := reachable_inv h
  refine ⟨?_, hinv.completed_prefix⟩
  rcases hx : c.exit_ with _ | _
  · exact ⟨c.queue, hinv.order_open hx⟩
  · exact hinv.order_closed hx

/-- Witness for C3, at the freshly constructed state. -/
theorem fifo_transmission_order_witness :
    (∃ l, (TcpClient.init "127.0.0.1" 46801 5 1).submitted =
        (TcpClient.init "127.0.0.1" 46801 5 1).dispatched ++ l) ∧
    (TcpClient.init "127.0.0.1" 46801 5 1).dispatched =
      (TcpClient.init "127.0.0.1" 46801 5 1).completedLog ++
        (TcpClient.init "127.0.0.1" 46801 5 1).inflight.toList :=
  fifo_transmission_order (Reachable.init "127.0.0.1" 46801 5 1)

/-- Claim C4: every submitted buffer is resolved at most once (the
resolution log never repeats a buffer), every submitted buffer is accounted
for at all times (it is in the resolution log, the queue, or in flight — no
silent drop), and once the connection has been closed every submitted buffer
has been resolved exactly once. -/
theorem buffers_resolved_exactly_once {c : TcpClient} (h : Reachable c) :
    (c.resLog.map Prod.fst).Nodup ∧
    List.Perm (c.resLog.map Prod.fst ++ c.queue ++ c.inflight.toList)
      c.submitted ∧
    (c.exit_ = true → List.Perm (c.resLog.map Prod.fst) c.submitted) := by
  have hinv := reachable_inv h
  have hperm := hinv.conserve
  have hsub : c.submitted.Nodup := by
    rw [hinv.submitted_range]; exact List.nodup_range _
  have hall : (c.resLog.map Prod.fst ++ c.queue ++ c.inflight.toList).Nodup :=
    hperm.nodup_iff.mpr hsub
  refine ⟨hall.of_append_left.of_append_left, hperm, ?_⟩
  intro hx
  obtain ⟨-, hq, hin⟩ := hinv.exit_stopped hx
  have hp := hperm
  rw [hq, hin] at hp
  simpa using hp

/-- Witness for C4, at the freshly constructed state. -/
theorem buffers_resolved_exactly_once_witness :
    ((TcpClient.init "127.0.0.1" 46801 5 1).resLog.map Prod.fst).Nodup ∧
    List.Perm ((TcpClient.init "127.0.0.1" 46801 5 1).resLog.map Prod.fst ++
      (TcpClient.init "127.0.0.1" 46801 5 1).queue ++
      (TcpClient.init "127.0.0.1" 46801 5 1).inflight.toList)
      (TcpClient.init "127.0.0.1" 46801 5 1).submitted ∧
    ((TcpClient.init "127.0.0.1" 46801 5 1).exit_ = true →
      List.Perm ((TcpClient.init "127.0.0.1" 46801 5 1).resLog.map Prod.fst)
        (TcpClient.init "127.0.0.1" 46801 5 1).submitted) :=
  buffers_resolved_exactly_once (Reachable.init "127.0.0.1" 46801 5 1)

/-- Claim C5: `DoClose` is idempotent — after one invocation has moved the
connection to `Stopped` and released its resources, a second invocation
returns the state completely unchanged (status, socket, timers, receive
block, queue, logs). -/
theorem doClose_idempotent (c : TcpClient) : c.doClose.doClose = c.doClose := by
  obtain ⟨st, ip, pt, so, ct, ka, rb, ti, td, lu, pp, ex, q, infl, ni, sub, disp, comp, res⟩ := c
  cases ex
  · rcases infl with _ | b <;>
      simp [TcpClient.doClose, TcpClient.resolveInflight]
  · rfl

/-- Claim C10: `isFree()` is a pure query — it leaves every field of the
connection unchanged, and its result depends only on the current status:
two connections agreeing on `status_` get the same answer. -/
theorem isFree_pure (c c2 : TcpClient) (hst : c.status_ = c2.status_) :
    (TcpClient.isFree c).2 = c ∧
    (TcpClient.isFree c).1 = (TcpClient.isFree c2).1 := by
  exact ⟨rfl, by simp [TcpClient.isFree, hst]⟩

/-- Witness for C10, on two connections to different endpoints sharing a
status. -/
theorem isFree_pure_witness :
    (TcpClient.isFree (TcpClient.init "10.0.0.1" 1 5 1)).2 =
      TcpClient.init "10.0.0.1" 1 5 1 ∧
    (TcpClient.isFree (TcpClient.init "10.0.0.1" 1 5 1)).1 =
      (TcpClient.isFree (TcpClient.init "10.0.0.2" 2 7 3)).1 :=
  isFree_pure (TcpClient.init "10.0.0.1" 1 5 1) (TcpClient.init "10.0.0.2" 2 7 3) rfl

/-- Claim C6, counterexample: an explicit close (`DoClose`) on a freshly
constructed connection also takes the status out of `Undefined` — to
`Stopped` — without any `AsyncConnect` having been called, so `AsyncConnect`
is not the only operation that moves the status away from `Undefined`. -/
theorem undefined_left_by_close_counterexample :
    (TcpClient.init "127.0.0.1" 46801 5 1).status_ = kUndefined ∧
    (step Event.close (TcpClient.init "127.0.0.1" 46801 5 1)).status_ = kStopped ∧
    Event.close ≠ Event.asyncConnect :=
  ⟨rfl, rfl, by decide⟩

/-- Claim C6 amended: immediately after construction the status is
`Undefined` and no connect has been initiated (no connect timer armed, the
socket not open); the status leaves `Undefined` only on the first
`AsyncConnect` call (to `Connecting`) or on an explicit close (to
`Stopped`). -/
theorem status_undefined_until_connect_or_close :
    (∀ ip port idle interval,
      (TcpClient.init ip port idle interval).status_ = kUndefined ∧
      (TcpClient.init ip port idle interval).connect_timer_ = none ∧
      (TcpClient.init ip port idle interval).socket_open = false) ∧
    (∀ c e, c.status_ = kUndefined → e ≠ Event.asyncConnect → e ≠ Event.close →
      (step e c).status_ = kUndefined) ∧
    (∀ c, c.status_ = kUndefined → c.exit_ = false →
      (step Event.asyncConnect c).status_ = kConnecting ∧
      (step Event.close c).status_ = kStopped) := by
  refine ⟨fun ip port idle interval => ⟨rfl, rfl, rfl⟩, ?_, ?_⟩
  · intro c e hU hna hnc
    obtain ⟨st, ip, pt, so, ct, ka, rb, ti, td, lu, pp, ex, q, infl, ni, sub, disp, comp, res⟩ := c
    dsimp only at hU
    subst hU
    cases e <;>
      first
      | exact absurd rfl hna
      | exact absurd rfl hnc
      | (cases ex <;>
          (try simp [step, TcpClient.asyncConnect, TcpClient.onConnected,
            TcpClient.connectTimerFire, TcpClient.writeReq, TcpClient.onWroten,
            TcpClient.onResponse, TcpClient.drain, TcpClient.detect,
            TcpClient.doClose, TcpClient.handleFail, TcpClient.resolveInflight,
            TcpClient.dispatch]))
  · intro c hU hex
    obtain ⟨st, ip, pt, so, ct, ka, rb, ti, td, lu, pp, ex, q, infl, ni, sub, disp, comp, res⟩ := c
    dsimp only at hU hex
    subst hU; subst hex
    constructor
    · simp [step, TcpClient.asyncConnect]
    · rcases infl with _ | b <;>
        simp [step, TcpClient.doClose, TcpClient.resolveInflight]

/-- Witness for the amended C6: submitting a buffer on a fresh connection
leaves the status `Undefined`. -/
theorem status_undefined_until_connect_or_close_witness :
    (step Event.writeReq (TcpClient.init "127.0.0.1" 46801 5 1)).status_ = kUndefined :=
  status_undefined_until_connect_or_close.2.1 (TcpClient.init "127.0.0.1" 46801 5 1)
    Event.writeReq rfl (by decide) (by decide)

/-- Claim C7: on a connected connection with no pending probe, if the
keep-alive timer finds the connection idle (`now - last_update_time_ >=
tcp_idle_time_`) it first issues a probe without changing the status, the
next fire that still finds it idle with the probe unanswered moves it to
`ConnectFailed`, and every later fire is a complete no-op — the transition
happens exactly once. -/
theorem idle_detect_fails_exactly_once {c : TcpClient} (t1 t2 : Nat)
    (hconn : c.status_ = kFree ∨ c.status_ = kWriting ∨ c.status_ = kWaiting)
    (hopen : c.exit_ = false) (hprobe : c.probe_pending = false)
    (h1 : c.last_update_time_ + c.tcp_idle_time_ ≤ t1)
    (h2 : c.last_update_time_ + c.tcp_idle_time_ ≤ t2) :
    ((c.detect t1).detect t2).status_ = kConnectFailed ∧
    (c.detect t1).status_ = c.status_ ∧
    (∀ t3, ((c.detect t1).detect t2).detect t3 = (c.detect t1).detect t2) := by
  obtain ⟨st, ip, pt, so, ct, ka, rb, ti, td, lu, pp, ex, q, infl, ni, sub, disp, comp, res⟩ := c
  dsimp only at hconn hopen hprobe h1 h2
  subst hopen; subst hprobe
  rcases infl with _ | b <;>
    rcases hconn with hst | hst | hst <;> subst hst <;>
      refine ⟨?_, ?_, fun t3 => ?_⟩ <;>
        simp [TcpClient.detect, TcpClient.handleFail, TcpClient.resolveInflight, h1, h2]

/-- Witness for C7: a connection that connected at time 7 with idle
threshold 5 and is probed at times 12 and 13 ends `ConnectFailed`. -/
theorem idle_detect_fails_exactly_once_witness :
    (((step (Event.connectDone true 7) (step Event.asyncConnect
        (TcpClient.init "127.0.0.1" 46801 5 1))).detect 12).detect 13).status_ =
      kConnectFailed :=
  (idle_detect_fails_exactly_once 12 13 (Or.inl rfl) rfl rfl (by decide) (by decide)).1

/-- Claim C8: the last-activity timestamp never decreases under any event
whose timestamp is at least the current one (wall-clock time being
monotone), and every successful I/O completion — connect success, write
success, response receipt (complete or partial frame) — sets it to the
event's time. -/
theorem last_update_monotone (c : TcpClient) :
    (∀ e, (∀ t, Event.time e = some t → c.last_update_time_ ≤ t) →
      c.last_update_time_ ≤ (step e c).last_update_time_) ∧
    (∀ now, c.status_ = kConnecting → c.exit_ = false →
      (c.onConnected true now).last_update_time_ = now) ∧
    (∀ now, c.status_ = kWriting → c.exit_ = false →
      (c.onWroten true now).last_update_time_ = now) ∧
    (∀ v now, c.status_ = kWaiting → c.exit_ = false → v ≠ Verdict.malformed →
      (c.onResponse v now).last_update_time_ = now) := by
  obtain ⟨st, ip, pt, so, ct, ka, rb, ti, td, lu, pp, ex, q, infl, ni, sub, disp, comp, res⟩ := c
  refine ⟨?_, ?_, ?_, ?_⟩
  · intro e ht
    cases e <;> cases ex <;>
      (try simp [step, TcpClient.asyncConnect, TcpClient.onConnected,
        TcpClient.connectTimerFire, TcpClient.writeReq, TcpClient.onWroten,
        TcpClient.onResponse, TcpClient.drain, TcpClient.detect,
        TcpClient.doClose, TcpClient.handleFail, TcpClient.resolveInflight,
        TcpClient.dispatch]) <;>
      (repeat' split) <;>
      first
      | exact ht _ rfl
      | simp
  · intro now hst hex
    dsimp only at hst hex
    subst hst; subst hex
    rcases q with _ | ⟨b, rest⟩ <;>
      simp [TcpClient.onConnected, TcpClient.dispatch]
  · intro now hst hex
    dsimp only at hst hex
    subst hst; subst hex
    simp [TcpClient.onWroten]
  · intro v now hst hex hv
    dsimp only at hst hex
    subst hst; subst hex
    cases v
    · rcases infl with _ | b <;>
        simp [TcpClient.onResponse, TcpClient.resolveInflight]
    · simp [TcpClient.onResponse]
    · exact absurd rfl hv

/-- Witness for C8: connect success at time 9 stamps the last-activity
time 9. -/
theorem last_update_monotone_witness :
    ((step Event.asyncConnect
        (TcpClient.init "127.0.0.1" 46801 5 1)).onConnected true 9).last_update_time_ = 9 :=
  (last_update_monotone
    (step Event.asyncConnect (TcpClient.init "127.0.0.1" 46801 5 1))).2.1 9 rfl rfl

/-- Claim C9: the fixed connect timeout is `1000 * 20 = 20000` milliseconds,
and `AsyncConnect` arms the one-shot connect timer with exactly that
value. -/
theorem connect_timer_armed_20000 {c : TcpClient} (hex : c.exit_ = false)
    (hst : c.status_ = kUndefined ∨ c.status_ = kFree ∨ c.status_ = kConnectFailed) :
    kConnectTimeout = 20000 ∧ c.asyncConnect.connect_timer_ = some 20000 := by
  obtain ⟨st, ip, pt, so, ct, ka, rb, ti, td, lu, pp, ex, q, infl, ni, sub, disp, comp, res⟩ := c
  dsimp only at hex hst
  subst hex
  refine ⟨rfl, ?_⟩
  rcases hst with hst | hst | hst <;> subst hst <;>
    simp [TcpClient.asyncConnect, kConnectTimeout]

/-- Witness for C9, at the freshly constructed state. -/
theorem connect_timer_armed_20000_witness :
    kConnectTimeout = 20000 ∧
    (TcpClient.init "127.0.0.1" 46801 5 1).asyncConnect.connect_timer_ = some 20000 :=
  connect_timer_armed_20000 rfl (Or.inl rfl)

end Inlong
